import Mathlib

/-!
# DATACHDATACHART — access-code ledger: shallow embedding and verification

This file embeds the access-code quota component of the repository
(`backend/app/models.py`, `backend/app/services/access_code_service.py`,
and the billing steps of the legacy handlers in `backend/app/main.py`)
and proves/refutes the spec's claims about it.

Modelling conventions:
* Timestamps are `Nat` (the current clock is passed explicitly as `now`,
  standing for `datetime.utcnow()`).
* The database row matching a given token is an `Option AccessCode`
  (`none` = no row, i.e. the token is unknown).  Free-form metadata
  columns (`id`, `access_code` string, `description`, `created_by`,
  `created_at`, `updated_at`) are omitted: no claim mentions them.
* Counters are `Nat`: `usage_count` has column default 0 and is only ever
  incremented; `max_usage` is validated `> 0` by the request schema.
* A storage failure (an exception raised by the store during the write /
  commit) is modelled by an explicit boolean oracle `fault`; the
  `try/except` blocks of the service become the corresponding branches.
-/

namespace DataChart

/-- Failure/success reasons.  Each constructor stands for one distinct
human-readable message produced by the service:
`ok` = "访问码有效"/"使用成功", `notFound` = "访问码不存在",
`inactive` = "访问码已被禁用", `exhausted` = "访问码使用次数已用完"/"访问码使用次数已达上限",
`expired` = "访问码已过期", `invalid` = "访问码无效",
`storageError` = the message built in the `except` branch. -/
inductive Reason where
  | ok
  | notFound
  | inactive
  | exhausted
  | expired
  | invalid
  | storageError
deriving DecidableEq, Repr

/-- Derived status values of `AccessCode.status` (`models.py`). -/
inductive Status where
  | active
  | inactive
  | expired
  | exhausted
deriving DecidableEq, Repr

/-- The `access_codes` row (`models.py`, class `AccessCode`), restricted to
the columns the ledger logic reads: `max_usage`, `usage_count`,
`is_active`, `expires_at`. -/
structure AccessCode where
  max_usage : Nat
  usage_count : Nat
  is_active : Bool
  expires_at : Option Nat
deriving DecidableEq, Repr

namespace AccessCode

/-- `AccessCode.is_valid` (`models.py` lines 40-51): active, below the
usage limit, and not past `expires_at` (when one is set). -/
def is_valid (c : AccessCode) (now : Nat) : Bool :=
  if ¬ c.is_active then false
  else if c.usage_count ≥ c.max_usage then false
  else match c.expires_at with
    | some t => if t < now then false else true
    | none => true

/-- `AccessCode.can_use` (`models.py` lines 53-55). -/
def can_use (c : AccessCode) (now : Nat) : Bool :=
  c.is_valid now && decide (c.usage_count < c.max_usage)

/-- `AccessCode.increment_usage` (`models.py` lines 57-62): the
application-level read-then-write increment.  Returns the mutated
in-memory object and whether the increment happened. -/
def increment_usage (c : AccessCode) (now : Nat) : AccessCode × Bool :=
  if c.can_use now then ({ c with usage_count := c.usage_count + 1 }, true)
  else (c, false)

/-- `AccessCode.remaining_usage` (`models.py` lines 64-67):
`max(0, max_usage - usage_count)`, which is truncated subtraction on `Nat`. -/
def remaining_usage (c : AccessCode) : Nat :=
  c.max_usage - c.usage_count

/-- `AccessCode.status` (`models.py` lines 69-78), in the source's branch
order: inactive, then exhausted, then expired, then active. -/
def status (c : AccessCode) (now : Nat) : Status :=
  if ¬ c.is_active then .inactive
  else if c.usage_count ≥ c.max_usage then .exhausted
  else match c.expires_at with
    | some t => if t < now then .expired else .active
    | none => .active

end AccessCode

/-- A `usage_logs` row (`models.py`, class `UsageLog`), restricted to the
fields `use_access_code` writes: outcome and the supplied context. -/
structure UsageLog where
  success : Bool
  ip_address : Option String
  user_agent : Option String
deriving DecidableEq, Repr

/-- The persistent state seen by the service for one token: the matching
`access_codes` row (if any) and the `usage_logs` table. -/
structure ServiceState where
  code : Option AccessCode
  logs : List UsageLog
deriving DecidableEq, Repr

/-- Result triple of `validate_access_code`:
`(bool, Optional[AccessCode], str)`. -/
structure ValidateResult where
  valid : Bool
  code : Option AccessCode
  reason : Reason
deriving DecidableEq, Repr

/-- Result triple of `use_access_code`:
`(bool, str, Optional[AccessCode])`. -/
structure UseResult where
  success : Bool
  reason : Reason
  code : Option AccessCode
deriving DecidableEq, Repr

/-- `AccessCodeService.validate_access_code`
(`access_code_service.py` lines 58-80).  `fault = true` models the store
raising during the lookup; the `except` branch returns
`(False, None, "验证失败")`.  The read path issues no writes, so the state
is returned unchanged on every branch. -/
def validate_access_code (st : ServiceState) (now : Nat) (fault : Bool) :
    ServiceState × ValidateResult :=
  if fault then (st, ⟨false, none, .storageError⟩)
  else
    match st.code with
    | none => (st, ⟨false, none, .notFound⟩)
    | some c =>
      if ¬ c.is_valid now then
        if c.status now = .inactive then (st, ⟨false, some c, .inactive⟩)
        else if c.status now = .exhausted then (st, ⟨false, some c, .exhausted⟩)
        else if c.status now = .expired then (st, ⟨false, some c, .expired⟩)
        else (st, ⟨false, some c, .invalid⟩)
      else (st, ⟨true, some c, .ok⟩)

/-- `AccessCodeService.use_access_code`
(`access_code_service.py` lines 82-147).  Sequential semantics of one
call within one transaction:
1. look the row up (`none` → not found);
2. re-check `is_valid`, mapping the invalid statuses through the source's
   chain — `exhausted`, `expired`, else the generic "访问码无效"
   (note: there is no `inactive` branch here, unlike `validate`);
3. the conditional `UPDATE … SET usage_count = usage_count + 1
   WHERE id = :id AND usage_count < max_usage RETURNING usage_count`:
   it matches exactly when `usage_count < max_usage`, else no row;
4. the post-check `new_usage_count > max_usage` → rollback;
5. append the success `UsageLog` and commit — `fault = true` models the
   commit raising, in which case the `except` branch rolls the
   transaction back (state unchanged) and returns `(False, msg, None)`. -/
def use_access_code (st : ServiceState) (now : Nat)
    (ip ua : Option String) (fault : Bool) : ServiceState × UseResult :=
  match st.code with
  | none => (st, ⟨false, .notFound, none⟩)
  | some c =>
    if ¬ c.is_valid now then
      if c.status now = .exhausted then (st, ⟨false, .exhausted, some c⟩)
      else if c.status now = .expired then (st, ⟨false, .expired, some c⟩)
      else (st, ⟨false, .invalid, some c⟩)
    else
      if c.usage_count < c.max_usage then
        let c' : AccessCode := { c with usage_count := c.usage_count + 1 }
        if c'.usage_count > c'.max_usage then
          (st, ⟨false, .exhausted, some c'⟩)
        else if fault then
          (st, ⟨false, .storageError, none⟩)
        else
          (⟨some c', st.logs ++ [⟨true, ip, ua⟩]⟩, ⟨true, .ok, some c'⟩)
      else (st, ⟨false, .exhausted, some c⟩)

/-- Fold a sequence of `use_access_code` calls (each with its own clock
reading and fault oracle) over the state, keeping only the state. -/
def consumeSeq (st : ServiceState) (calls : List (Nat × Bool)) : ServiceState :=
  calls.foldl (fun s nf => (use_access_code s nf.1 none none nf.2).1) st

/-- `AccessCodeCreate` (`schemas.py` lines 40-49), restricted to the
columns the model keeps; the schema validates `max_usage > 0`. -/
structure AccessCodeCreate where
  max_usage : Nat
  expires_at : Option Nat
deriving DecidableEq, Repr

/-- `AccessCodeUpdate` (`schemas.py` lines 51-56).  `none` in the outer
`Option` means the field was not supplied (`exclude_unset=True`); the
schema validates a supplied `max_usage` to be `> 0`. -/
structure AccessCodeUpdate where
  max_usage : Option Nat
  is_active : Option Bool
  expires_at : Option (Option Nat)
deriving DecidableEq, Repr

/-- `AccessCodeService.create_access_code`
(`access_code_service.py` lines 23-44): a fresh row with the column
defaults `usage_count = 0` and `is_active = True` (`models.py`). -/
def create_access_code (data : AccessCodeCreate) : AccessCode :=
  { max_usage := data.max_usage
    usage_count := 0
    is_active := true
    expires_at := data.expires_at }

/-- `AccessCodeService.update_access_code`
(`access_code_service.py` lines 159-179): looks the row up and applies
`setattr` for every supplied field (`usage_count` is not among the
updatable fields).  Returns the new store plus the returned record. -/
def update_access_code (st : Option AccessCode) (u : AccessCodeUpdate) :
    Option AccessCode × Option AccessCode :=
  match st with
  | none => (none, none)
  | some c =>
    let c' : AccessCode :=
      { c with
        max_usage := u.max_usage.getD c.max_usage
        is_active := u.is_active.getD c.is_active
        expires_at := u.expires_at.getD c.expires_at }
    (some c', some c')

/-- `AccessCodeService.delete_access_code`
(`access_code_service.py` lines 181-197). -/
def delete_access_code (st : Option AccessCode) : Option AccessCode × Bool :=
  match st with
  | none => (none, false)
  | some _ => (none, true)

/-! ## Legacy billing path (`main.py`)

The legacy chart handlers (`generate_chart`, `generate_chart_from_data`,
`generate_selected_charts`; `main.py` lines 433-523, 525-577, 655-744)
bill a request by: `validate_access_code`, a `can_use()` pre-check, the
expensive work, then `db.add(usage_log)`, `code_record.increment_usage()`
and `db.commit()` — an application-level read-then-write on the session's
snapshot of the row, not the conditional `UPDATE` of `use_access_code`. -/

/-- One legacy handler's billing decision against its session's snapshot
of the row (`main.py` lines 448-501): fail fast if the snapshot is not
valid or `can_use()` is false, otherwise report success and commit the
snapshot mutated by `increment_usage`.  The value `increment_usage`
returns is ignored by the handler. -/
def legacy_generate_chart_billing (snapshot : AccessCode) (now : Nat) :
    Bool × AccessCode :=
  if ¬ snapshot.is_valid now then (false, snapshot)
  else if ¬ snapshot.can_use now then (false, snapshot)
  else (true, (snapshot.increment_usage now).1)

/-- Two legacy handlers racing on the same code: both sessions read their
snapshot from the same committed row before either commits (a legal
interleaving of two concurrent requests), then each successful handler
flushes its own in-memory object (last write wins).  Returns the two
outcomes and the final stored row. -/
def legacy_race (c : AccessCode) (now : Nat) : Bool × Bool × Option AccessCode :=
  let a := legacy_generate_chart_billing c now
  let b := legacy_generate_chart_billing c now
  let db1 : Option AccessCode := if a.1 then some a.2 else some c
  let db2 : Option AccessCode := if b.1 then some b.2 else db1
  (a.1, b.1, db2)

/-! ## Interleaved executions of `use_access_code`

Concurrent `use_access_code` calls against one code are modelled as `N`
consumers, each executing two atomic phases against the shared row:

* phase 1 (`ready → checked / doneF`): the lookup plus the `is_valid`
  re-check against the currently committed row, failing with the reason
  chain of `use_access_code` (lines 89-101);
* phase 2 (`checked → doneS / doneF`): the conditional
  `UPDATE … WHERE usage_count < max_usage` together with its commit
  (lines 104-139) — the store executes the conditional update atomically,
  so it either increments and succeeds or matches no row and fails with
  the exhausted reason (line 117).

A schedule is an arbitrary list of consumer indices; the scheduler may
interleave the phases of different consumers in any order. -/

/-- Progress of one consumer through `use_access_code`. -/
inductive Phase where
  | ready
  | checked
  | doneS
  | doneF (r : Reason)
deriving DecidableEq, Repr

/-- Shared state of an interleaved execution: the committed `usage_count`
of the row and each consumer's phase. -/
structure ConcState where
  count : Nat
  phases : List Phase
deriving DecidableEq, Repr

/-- One atomic step of consumer `i` (no-op if `i` is out of range or the
consumer is already done).  `M`, `isA`, `exp` are the row's `max_usage`,
`is_active`, `expires_at` columns, which no consumer writes. -/
def consumerStep (M : Nat) (isA : Bool) (exp : Option Nat) (now : Nat)
    (s : ConcState) (i : Nat) : ConcState :=
  match s.phases[i]? with
  | some .ready =>
    let c : AccessCode := ⟨M, s.count, isA, exp⟩
    if ¬ c.is_valid now then
      let r := if c.status now = .exhausted then Reason.exhausted
               else if c.status now = .expired then Reason.expired
               else Reason.invalid
      { s with phases := s.phases.set i (.doneF r) }
    else { s with phases := s.phases.set i .checked }
  | some .checked =>
    if s.count < M then
      { count := s.count + 1, phases := s.phases.set i .doneS }
    else { s with phases := s.phases.set i (.doneF .exhausted) }
  | _ => s

/-- Run a schedule of consumer steps. -/
def runConc (M : Nat) (isA : Bool) (exp : Option Nat) (now : Nat)
    (s : ConcState) (sched : List Nat) : ConcState :=
  sched.foldl (consumerStep M isA exp now) s

/-- The consumer finished successfully. -/
def isDoneS : Phase → Bool
  | .doneS => true
  | _ => false

/-- The consumer finished with a failure. -/
def isDoneF : Phase → Bool
  | .doneF _ => true
  | _ => false

/-- The consumer finished. -/
def isDone (p : Phase) : Bool :=
  isDoneS p || isDoneF p

/-- Every consumer finished (the execution is complete). -/
def allDone (l : List Phase) : Bool :=
  l.all isDone

/-- Number of consumers that finished successfully. -/
def succCount (l : List Phase) : Nat :=
  l.countP isDoneS

/-- Number of consumers that finished with a failure. -/
def failCount (l : List Phase) : Nat :=
  l.countP isDoneF

/-- Invariant of the interleaved execution: list length is the number of
consumers; the committed count is the initial count plus the successes;
the committed count never exceeds `max_usage`; a failure exists only once
the count has reached `max_usage`; and every failure carries the
exhausted reason. -/
def ConcInv (M c0 N : Nat) (s : ConcState) : Prop :=
  s.phases.length = N ∧
  s.count = c0 + succCount s.phases ∧
  s.count ≤ M ∧
  (failCount s.phases ≠ 0 → s.count = M) ∧
  (∀ r, Phase.doneF r ∈ s.phases → r = Reason.exhausted)

/-! ## Helper lemmas -/

theorem countP_set_get {α : Type} (l : List α) (i : Nat) (a b : α)
    (p : α → Bool) (h : l[i]? = some a) :
    (l.set i b).countP p + (if p a then 1 else 0) =
      l.countP p + (if p b then 1 else 0) := by
  induction l generalizing i with
  | nil => simp at h
  | cons x xs ih =>
    cases i with
    | zero =>
      simp at h
      subst h
      simp [List.countP_cons]
      omega
    | succ n =>
      simp at h
      have := ih n h
      simp [List.countP_cons]
      omega

theorem mem_set_elim {α : Type} {l : List α} {i : Nat} {b x : α}
    (h : x ∈ l.set i b) : x ∈ l ∨ x = b := by
  induction l generalizing i with
  | nil => simp at h
  | cons y ys ih =>
    cases i with
    | zero =>
      simp at h
      rcases h with h | h
      · exact Or.inr h
      · exact Or.inl (List.mem_cons_of_mem _ h)
    | succ n =>
      simp at h
      rcases h with h | h
      · exact Or.inl (by simp [h])
      · rcases ih h with h' | h'
        · exact Or.inl (List.mem_cons_of_mem _ h')
        · exact Or.inr h'

theorem succCount_replicate_ready (n : Nat) :
    succCount (List.replicate n .ready) = 0 := by
  induction n with
  | zero => rfl
  | succ k ih => simp [List.replicate, succCount, List.countP_cons, isDoneS] at *

theorem failCount_replicate_ready (n : Nat) :
    failCount (List.replicate n .ready) = 0 := by
  induction n with
  | zero => rfl
  | succ k ih => simp [List.replicate, failCount, List.countP_cons, isDoneF] at *

theorem allDone_counts (l : List Phase) (h : allDone l = true) :
    succCount l + failCount l = l.length := by
  induction l with
  | nil => rfl
  | cons x xs ih =>
    simp [allDone] at h
    have hx := h.1
    have hrest := ih (by simp [allDone]; exact h.2)
    cases x with
    | ready => simp [isDone, isDoneS, isDoneF] at hx
    | checked => simp [isDone, isDoneS, isDoneF] at hx
    | doneS => simp [succCount, failCount, List.countP_cons, isDoneS, isDoneF] at *; omega
    | doneF r => simp [succCount, failCount, List.countP_cons, isDoneS, isDoneF] at *; omega

theorem is_valid_lt {c : AccessCode} {now : Nat} (h : c.is_valid now = true) :
    c.usage_count < c.max_usage := by
  unfold AccessCode.is_valid at h
  split at h
  · exact absurd h (by simp)
  · split at h
    · exact absurd h (by simp)
    · omega

theorem use_none (logs : List UsageLog) (now : Nat) (ip ua : Option String)
    (fault : Bool) :
    use_access_code ⟨none, logs⟩ now ip ua fault =
      (⟨none, logs⟩, ⟨false, .notFound, none⟩) := rfl

theorem use_invalid {c : AccessCode} {now : Nat} (logs : List UsageLog)
    (ip ua : Option String) (fault : Bool) (h : c.is_valid now = false) :
    use_access_code ⟨some c, logs⟩ now ip ua fault =
      (⟨some c, logs⟩,
       ⟨false,
        if c.status now = .exhausted then .exhausted
        else if c.status now = .expired then .expired
        else .invalid,
        some c⟩) := by
  unfold use_access_code
  simp [h]
  split
  · simp
  · split <;> simp

theorem use_valid {c : AccessCode} {now : Nat} (logs : List UsageLog)
    (ip ua : Option String) (fault : Bool) (h : c.is_valid now = true) :
    use_access_code ⟨some c, logs⟩ now ip ua fault =
      (if fault then (⟨some c, logs⟩, ⟨false, .storageError, none⟩)
       else (⟨some { c with usage_count := c.usage_count + 1 },
              logs ++ [⟨true, ip, ua⟩]⟩,
             ⟨true, .ok, some { c with usage_count := c.usage_count + 1 }⟩)) := by
  have hlt := is_valid_lt h
  unfold use_access_code
  simp [h, hlt]
  have : ¬ (c.usage_count + 1 > c.max_usage) := by omega
  simp [this]

theorem validate_state_id (st : ServiceState) (now : Nat) (fault : Bool) :
    (validate_access_code st now fault).1 = st := by
  unfold validate_access_code
  split
  · rfl
  · split
    · rfl
    · split
      · split
        · rfl
        · split
          · rfl
          · split <;> rfl
      · rfl

theorem use_fail_state_id (st : ServiceState) (now : Nat)
    (ip ua : Option String) (fault : Bool)
    (h : (use_access_code st now ip ua fault).2.success = false) :
    (use_access_code st now ip ua fault).1 = st := by
  obtain ⟨code, logs⟩ := st
  cases code with
  | none => rw [use_none]
  | some c =>
    cases hv : c.is_valid now with
    | false => rw [use_invalid logs ip ua fault hv]
    | true =>
      rw [use_valid logs ip ua fault hv] at h ⊢
      cases fault with
      | true => simp
      | false => simp at h

theorem concInv_step (M c0 N now : Nat) (s : ConcState) (i : Nat)
    (h : ConcInv M c0 N s) :
    ConcInv M c0 N (consumerStep M true none now s i) := by
  obtain ⟨hlen, hcnt, hle, hfail, hreas⟩ := h
  cases hp : s.phases[i]? with
  | none =>
    have hstep : consumerStep M true none now s i = s := by
      simp [consumerStep, hp]
    rw [hstep]
    exact ⟨hlen, hcnt, hle, hfail, hreas⟩
  | some ph =>
    cases ph with
    | doneS =>
      have hstep : consumerStep M true none now s i = s := by
        simp [consumerStep, hp]
      rw [hstep]
      exact ⟨hlen, hcnt, hle, hfail, hreas⟩
    | doneF r =>
      have hstep : consumerStep M true none now s i = s := by
        simp [consumerStep, hp]
      rw [hstep]
      exact ⟨hlen, hcnt, hle, hfail, hreas⟩
    | ready =>
      by_cases hc : s.count < M
      · have hv : (AccessCode.mk M s.count true none).is_valid now = true := by
          unfold AccessCode.is_valid
          simp
          omega
        have hstep : consumerStep M true none now s i =
            { s with phases := s.phases.set i .checked } := by
          simp [consumerStep, hp, hv]
        rw [hstep]
        have hs := countP_set_get s.phases i .ready .checked isDoneS hp
        have hf := countP_set_get s.phases i .ready .checked isDoneF hp
        simp [isDoneS, isDoneF] at hs hf
        refine ⟨by simp [hlen], ?_, hle, ?_, ?_⟩
        · simp only [succCount] at hcnt ⊢
          omega
        · intro hne
          apply hfail
          simp only [failCount] at hne ⊢
          omega
        · intro r hr
          rcases mem_set_elim hr with hm | hm
          · exact hreas r hm
          · simp at hm
      · have hv : (AccessCode.mk M s.count true none).is_valid now = false := by
          unfold AccessCode.is_valid
          simp
          omega
        have hstat : (AccessCode.mk M s.count true none).status now = .exhausted := by
          unfold AccessCode.status
          simp
          omega
        have hstep : consumerStep M true none now s i =
            { s with phases := s.phases.set i (.doneF .exhausted) } := by
          simp [consumerStep, hp, hv, hstat]
        rw [hstep]
        have hs := countP_set_get s.phases i .ready (.doneF .exhausted) isDoneS hp
        have hf := countP_set_get s.phases i .ready (.doneF .exhausted) isDoneF hp
        simp [isDoneS, isDoneF] at hs hf
        refine ⟨by simp [hlen], ?_, hle, ?_, ?_⟩
        · simp only [succCount] at hcnt ⊢
          omega
        · intro _
          dsimp only
          omega
        · intro r hr
          rcases mem_set_elim hr with hm | hm
          · exact hreas r hm
          · simp at hm
            simp [hm]
    | checked =>
      by_cases hc : s.count < M
      · have hstep : consumerStep M true none now s i =
            ⟨s.count + 1, s.phases.set i .doneS⟩ := by
          simp [consumerStep, hp, hc]
        rw [hstep]
        have hs := countP_set_get s.phases i .checked .doneS isDoneS hp
        have hf := countP_set_get s.phases i .checked .doneS isDoneF hp
        simp [isDoneS, isDoneF] at hs hf
        refine ⟨by simp [hlen], ?_, by dsimp only; omega, ?_, ?_⟩
        · simp only [succCount] at hcnt ⊢
          omega
        · intro hne
          have : failCount s.phases ≠ 0 := by
            simp only [failCount] at hne ⊢
            omega
          have := hfail this
          omega
        · intro r hr
          rcases mem_set_elim hr with hm | hm
          · exact hreas r hm
          · simp at hm
      · have hstep : consumerStep M true none now s i =
            { s with phases := s.phases.set i (.doneF .exhausted) } := by
          simp [consumerStep, hp, hc]
        rw [hstep]
        have hs := countP_set_get s.phases i .checked (.doneF .exhausted) isDoneS hp
        have hf := countP_set_get s.phases i .checked (.doneF .exhausted) isDoneF hp
        simp [isDoneS, isDoneF] at hs hf
        refine ⟨by simp [hlen], ?_, hle, ?_, ?_⟩
        · simp only [succCount] at hcnt ⊢
          omega
        · intro _
          dsimp only
          omega
        · intro r hr
          rcases mem_set_elim hr with hm | hm
          · exact hreas r hm
          · simp at hm
            simp [hm]

theorem concInv_run (M c0 N now : Nat) (sched : List Nat) (s : ConcState)
    (h : ConcInv M c0 N s) :
    ConcInv M c0 N (runConc M true none now s sched) := by
  induction sched generalizing s with
  | nil => exact h
  | cons i rest ih =>
    rw [runConc, List.foldl_cons]
    exact ih (consumerStep M true none now s i) (concInv_step M c0 N now s i h)

theorem concInv_init (M c0 N : Nat) (h : c0 ≤ M) :
    ConcInv M c0 N ⟨c0, List.replicate N .ready⟩ := by
  refine ⟨by simp, ?_, h, ?_, ?_⟩
  · simp [succCount_replicate_ready]
  · intro hne
    rw [failCount_replicate_ready] at hne
    exact absurd rfl hne
  · intro r hr
    have := List.eq_of_mem_replicate hr
    simp at this

theorem concFinal (M c0 N now : Nat) (sched : List Nat) (h0 : c0 ≤ M)
    (hdone : allDone (runConc M true none now
      ⟨c0, List.replicate N .ready⟩ sched).phases = true) :
    succCount (runConc M true none now
        ⟨c0, List.replicate N .ready⟩ sched).phases = min N (M - c0) ∧
    failCount (runConc M true none now
        ⟨c0, List.replicate N .ready⟩ sched).phases = N - min N (M - c0) ∧
    (∀ r, Phase.doneF r ∈ (runConc M true none now
        ⟨c0, List.replicate N .ready⟩ sched).phases → r = Reason.exhausted) := by
  obtain ⟨hlen, hcnt, hle, hfail, hreas⟩ :=
    concInv_run M c0 N now sched _ (concInv_init M c0 N h0)
  have hsum := allDone_counts _ hdone
  rw [hlen] at hsum
  refine ⟨?_, ?_, hreas⟩
  · by_cases hf : failCount (runConc M true none now
        ⟨c0, List.replicate N .ready⟩ sched).phases = 0
    · omega
    · have := hfail hf
      omega
  · by_cases hf : failCount (runConc M true none now
        ⟨c0, List.replicate N .ready⟩ sched).phases = 0
    · omega
    · have := hfail hf
      omega

theorem use_preserves_bound (st : ServiceState) (now : Nat)
    (ip ua : Option String) (fault : Bool)
    (h : ∀ c, st.code = some c → c.usage_count ≤ c.max_usage) :
    ∀ c, (use_access_code st now ip ua fault).1.code = some c →
      c.usage_count ≤ c.max_usage := by
  obtain ⟨code, logs⟩ := st
  cases code with
  | none => rw [use_none]; exact h
  | some c0 =>
    cases hv : c0.is_valid now with
    | false => rw [use_invalid logs ip ua fault hv]; exact h
    | true =>
      rw [use_valid logs ip ua fault hv]
      have hlt := is_valid_lt hv
      cases fault with
      | true => exact h
      | false =>
        intro c hc
        simp at hc
        subst hc
        simpa using hlt
    -- the fault branch returns the original state, so `h` applies

theorem consumeSeq_preserves_bound (calls : List (Nat × Bool)) (st : ServiceState)
    (h : ∀ c, st.code = some c → c.usage_count ≤ c.max_usage) :
    ∀ c, (consumeSeq st calls).code = some c → c.usage_count ≤ c.max_usage := by
  induction calls generalizing st with
  | nil => exact h
  | cons x rest ih =>
    rw [consumeSeq, List.foldl_cons]
    exact ih _ (use_preserves_bound st x.1 none none x.2 h)

/-! ## Claims -/

/-- C8: the derived status of an access code is computed in the fixed
priority order inactive → exhausted → expired → active; in particular an
inactive code past its expiry reports inactive, and an exhausted code
past its expiry reports exhausted. -/
theorem status_priority_order (c : AccessCode) (now : Nat) :
    (c.is_active = false → c.status now = .inactive) ∧
    (c.is_active = true → c.max_usage ≤ c.usage_count → c.status now = .exhausted) ∧
    (∀ t, c.is_active = true → c.usage_count < c.max_usage →
      c.expires_at = some t → t < now → c.status now = .expired) ∧
    (c.is_active = true → c.usage_count < c.max_usage →
      (∀ t, c.expires_at = some t → ¬ t < now) → c.status now = .active) := by
  refine ⟨?_, ?_, ?_, ?_⟩
  · intro h
    unfold AccessCode.status
    simp [h]
  · intro h1 h2
    unfold AccessCode.status
    simp [h1, ge_iff_le, h2]
  · intro t h1 h2 h3 h4
    unfold AccessCode.status
    rw [if_neg (by simp [h1]), if_neg (by omega), h3]
    simp [h4]
  · intro h1 h2 h3
    unfold AccessCode.status
    rw [if_neg (by simp [h1]), if_neg (by omega)]
    cases hexp : c.expires_at with
    | none => rfl
    | some t => simp [h3 t hexp]

/-- C8 witness: a deactivated, expired code reports `inactive`, and an
exhausted, expired code reports `exhausted`. -/
theorem status_priority_order_witness :
    AccessCode.status ⟨5, 0, false, some 1⟩ 10 = .inactive ∧
    AccessCode.status ⟨5, 5, true, some 1⟩ 10 = .exhausted :=
  ⟨(status_priority_order ⟨5, 0, false, some 1⟩ 10).1 rfl,
   (status_priority_order ⟨5, 5, true, some 1⟩ 10).2.1 rfl (by decide)⟩

/-- C9: `validate_access_code` has no side effects — it returns the
store unchanged on every branch (including the exception branch), and a
repeated call on the untouched state with the clock held fixed returns
the identical result. -/
theorem validate_idempotent_no_mutation (st : ServiceState) (now : Nat) (fault : Bool) :
    (validate_access_code st now fault).1 = st ∧
    (validate_access_code ((validate_access_code st now false).1) now false).2 =
      (validate_access_code st now false).2 := by
  refine ⟨validate_state_id st now fault, ?_⟩
  rw [validate_state_id st now false]

/-- C10: neither `validate_access_code` nor `use_access_code` surfaces a
storage exception: both are total functions of the fault oracle, and when
the store raises (`fault = true`) the `except` branches return a failure
triple with the transaction rolled back (state unchanged). -/
theorem service_returns_results_not_exceptions (st : ServiceState) (now : Nat)
    (ip ua : Option String) :
    ((use_access_code st now ip ua true).1 = st ∧
      (use_access_code st now ip ua true).2.success = false) ∧
    ((validate_access_code st now true).1 = st ∧
      (validate_access_code st now true).2 = ⟨false, none, .storageError⟩) := by
  have hsucc : (use_access_code st now ip ua true).2.success = false := by
    obtain ⟨code, logs⟩ := st
    cases code with
    | none => rfl
    | some c =>
      cases hv : c.is_valid now with
      | false => rw [use_invalid logs ip ua true hv]
      | true =>
        rw [use_valid logs ip ua true hv]
        simp
  exact ⟨⟨use_fail_state_id st now ip ua true hsucc, hsucc⟩,
    validate_state_id st now true, rfl⟩

/-- C6 counterexample: for a deactivated code, `validate_access_code`
reports the inactive reason but `use_access_code` reports the generic
invalid reason ("访问码无效"), not inactive — its failure chain has no
inactive branch. -/
theorem consume_inactive_reason_counterexample :
    (validate_access_code ⟨some ⟨5, 0, false, none⟩, []⟩ 0 false).2.reason =
      Reason.inactive ∧
    (use_access_code ⟨some ⟨5, 0, false, none⟩, []⟩ 0 none none false).2.reason =
      Reason.invalid ∧
    Reason.invalid ≠ Reason.inactive := by decide

/-- C6 amended: when `use_access_code` fails the state (hence
`usage_count`) is unchanged, and the reported reason is: not-found for a
missing code, exhausted when capacity is exhausted, expired past expiry —
but a deactivated code gets the generic invalid reason from consume,
while `validate_access_code` reports inactive for it. -/
theorem consume_failure_reasons :
    (∀ (st : ServiceState) (now : Nat) (ip ua : Option String) (fault : Bool),
      (use_access_code st now ip ua fault).2.success = false →
      (use_access_code st now ip ua fault).1 = st) ∧
    (∀ (logs : List UsageLog) (now : Nat) (ip ua : Option String) (fault : Bool),
      (use_access_code ⟨none, logs⟩ now ip ua fault).2.reason = .notFound) ∧
    (∀ (c : AccessCode) (logs : List UsageLog) (now : Nat) (ip ua : Option String)
      (fault : Bool), c.is_active = false →
      (use_access_code ⟨some c, logs⟩ now ip ua fault).2.reason = .invalid ∧
      (validate_access_code ⟨some c, logs⟩ now false).2.reason = .inactive) ∧
    (∀ (c : AccessCode) (logs : List UsageLog) (now : Nat) (ip ua : Option String)
      (fault : Bool), c.is_active = true → c.max_usage ≤ c.usage_count →
      (use_access_code ⟨some c, logs⟩ now ip ua fault).2.reason = .exhausted) ∧
    (∀ (c : AccessCode) (logs : List UsageLog) (now : Nat) (ip ua : Option String)
      (fault : Bool) (t : Nat), c.is_active = true → c.usage_count < c.max_usage →
      c.expires_at = some t → t < now →
      (use_access_code ⟨some c, logs⟩ now ip ua fault).2.reason = .expired) := by
  refine ⟨use_fail_state_id, by intros; rfl, ?_, ?_, ?_⟩
  · intro c logs now ip ua fault h
    have hv : c.is_valid now = false := by
      unfold AccessCode.is_valid
      simp [h]
    have hstat : c.status now = .inactive := by
      unfold AccessCode.status
      simp [h]
    constructor
    · rw [use_invalid logs ip ua fault hv]
      simp [hstat]
    · unfold validate_access_code
      simp [hv, hstat]
  · intro c logs now ip ua fault h1 h2
    have hv : c.is_valid now = false := by
      unfold AccessCode.is_valid
      simp [h1, ge_iff_le, h2]
    have hstat : c.status now = .exhausted := by
      unfold AccessCode.status
      simp [h1, ge_iff_le, h2]
    rw [use_invalid logs ip ua fault hv]
    simp [hstat]
  · intro c logs now ip ua fault t h1 h2 h3 h4
    have hv : c.is_valid now = false := by
      unfold AccessCode.is_valid
      rw [if_neg (by simp [h1]), if_neg (by omega), h3]
      simp [h4]
    have hstat : c.status now = .expired := by
      unfold AccessCode.status
      rw [if_neg (by simp [h1]), if_neg (by omega), h3]
      simp [h4]
    rw [use_invalid logs ip ua fault hv]
    simp [hstat]

/-- C6 amended witness: the three specific failure reasons at concrete
codes — deactivated (consume invalid / validate inactive), exhausted, and
expired. -/
theorem consume_failure_reasons_witness :
    (use_access_code ⟨some ⟨5, 0, false, none⟩, []⟩ 0 none none false).2.reason =
      Reason.invalid ∧
    (validate_access_code ⟨some ⟨5, 0, false, none⟩, []⟩ 0 false).2.reason =
      Reason.inactive ∧
    (use_access_code ⟨some ⟨3, 3, true, none⟩, []⟩ 0 none none false).2.reason =
      Reason.exhausted ∧
    (use_access_code ⟨some ⟨3, 0, true, some 1⟩, []⟩ 5 none none false).2.reason =
      Reason.expired :=
  ⟨(consume_failure_reasons.2.2.1 ⟨5, 0, false, none⟩ [] 0 none none false rfl).1,
   (consume_failure_reasons.2.2.1 ⟨5, 0, false, none⟩ [] 0 none none false rfl).2,
   consume_failure_reasons.2.2.2.1 ⟨3, 3, true, none⟩ [] 0 none none false rfl
     (by decide),
   consume_failure_reasons.2.2.2.2 ⟨3, 0, true, some 1⟩ [] 5 none none false 1 rfl
     (by decide) rfl (by decide)⟩

/-- C5: the claim that `usage_count` is mutated exclusively through the
consume operation's conditional update fails on the code: the legacy
`main.py` chart handlers bill via `AccessCode.increment_usage`, an
application-level read-then-write.  Evaluated at the failing input: on a
code with `max_usage = 1`, two interleaved legacy handlers both report
success (the race the conditional update exists to prevent), and the
mutation goes through `increment_usage`, not `use_access_code`. -/
theorem legacy_handler_mutates_usage_count :
    legacy_race ⟨1, 0, true, none⟩ 0 = (true, true, some ⟨1, 1, true, none⟩) ∧
    AccessCode.increment_usage ⟨1, 0, true, none⟩ 0 = (⟨1, 1, true, none⟩, true) ∧
    legacy_generate_chart_billing ⟨1, 0, true, none⟩ 0 =
      (true, ⟨1, 1, true, none⟩) := by decide

/-- C7 counterexample: the administrative update accepts a schema-valid
payload (`max_usage = 2 > 0`) that lowers `max_usage` below the current
`usage_count`, breaking `usage_count ≤ max_usage`. -/
theorem update_lowers_max_counterexample :
    (0 : Nat) < 2 ∧
    (⟨5, 3, true, none⟩ : AccessCode).usage_count ≤
      (⟨5, 3, true, none⟩ : AccessCode).max_usage ∧
    (update_access_code (some ⟨5, 3, true, none⟩) ⟨some 2, none, none⟩).1 =
      some ⟨2, 3, true, none⟩ ∧
    ¬ (⟨2, 3, true, none⟩ : AccessCode).usage_count ≤
      (⟨2, 3, true, none⟩ : AccessCode).max_usage := by decide

/-- C7 amended: create establishes `usage_count ≤ max_usage`; consume
preserves it; validate and delete do not touch the row; the
administrative update never changes `usage_count` and preserves the
bound exactly when the supplied `max_usage` (if any) is at least the
current `usage_count` — it may lower `max_usage` below `usage_count`
otherwise. -/
theorem operations_preserve_usage_bound :
    (∀ d : AccessCodeCreate,
      (create_access_code d).usage_count ≤ (create_access_code d).max_usage) ∧
    (∀ (st : ServiceState) (now : Nat) (ip ua : Option String) (fault : Bool),
      (∀ c, st.code = some c → c.usage_count ≤ c.max_usage) →
      ∀ c', (use_access_code st now ip ua fault).1.code = some c' →
        c'.usage_count ≤ c'.max_usage) ∧
    (∀ (st : ServiceState) (now : Nat) (fault : Bool),
      (validate_access_code st now fault).1 = st) ∧
    (∀ (c : AccessCode) (u : AccessCodeUpdate),
      c.usage_count ≤ c.max_usage →
      (∀ m, u.max_usage = some m → c.usage_count ≤ m) →
      ∀ c', (update_access_code (some c) u).1 = some c' →
        c'.usage_count ≤ c'.max_usage ∧ c'.usage_count = c.usage_count) ∧
    (∀ st : Option AccessCode, (delete_access_code st).1 = none) := by
  refine ⟨fun d => Nat.zero_le _, use_preserves_bound, validate_state_id, ?_, ?_⟩
  · intro c u hb hm c' hc'
    simp [update_access_code] at hc'
    subst hc'
    cases hmu : u.max_usage with
    | none => simpa [hmu] using hb
    | some m => simpa [hmu] using hm m hmu
  · intro st
    cases st <;> rfl

/-- C7 amended witness: at a concrete code with `usage_count = 3 ≤ 5`,
an update raising `max_usage` to 7 preserves the bound and leaves
`usage_count` unchanged. -/
theorem operations_preserve_usage_bound_witness :
    (⟨5, 3, true, none⟩ : AccessCode).usage_count ≤
      (⟨5, 3, true, none⟩ : AccessCode).max_usage ∧
    (update_access_code (some ⟨5, 3, true, none⟩) ⟨some 7, none, none⟩).1 =
      some ⟨7, 3, true, none⟩ ∧
    ((⟨7, 3, true, none⟩ : AccessCode).usage_count ≤
        (⟨7, 3, true, none⟩ : AccessCode).max_usage ∧
      (⟨7, 3, true, none⟩ : AccessCode).usage_count =
        (⟨5, 3, true, none⟩ : AccessCode).usage_count) :=
  ⟨by decide, by decide,
   operations_preserve_usage_bound.2.2.2.1 ⟨5, 3, true, none⟩ ⟨some 7, none, none⟩
     (by decide) (fun m hm => by simp at hm ⊢; omega) ⟨7, 3, true, none⟩ (by decide)⟩

/-- C1: for every sequence of `use_access_code` calls against a single
code whose stored `usage_count` starts at or below `max_usage`, the
stored `usage_count` never exceeds `max_usage` after any prefix of the
sequence. -/
theorem ledger_usage_never_exceeds_max (c : AccessCode) (logs : List UsageLog)
    (calls : List (Nat × Bool)) (k : Nat)
    (h : c.usage_count ≤ c.max_usage) :
    ∀ c', (consumeSeq ⟨some c, logs⟩ (calls.take k)).code = some c' →
      c'.usage_count ≤ c'.max_usage := by
  apply consumeSeq_preserves_bound
  intro c0 hc0
  simp at hc0
  subst hc0
  exact h

/-- C1 witness: starting a `max_usage = 2` code at `usage_count = 1`,
after the length-2 prefix of three consume calls the stored count is 2,
which does not exceed `max_usage`. -/
theorem ledger_usage_never_exceeds_max_witness :
    (1 : Nat) ≤ 2 ∧
    (consumeSeq ⟨some ⟨2, 1, true, none⟩, []⟩
      ([(0, false), (0, false), (0, false)].take 2)).code = some ⟨2, 2, true, none⟩ ∧
    (⟨2, 2, true, none⟩ : AccessCode).usage_count ≤
      (⟨2, 2, true, none⟩ : AccessCode).max_usage :=
  ⟨by decide, by decide,
   ledger_usage_never_exceeds_max ⟨2, 1, true, none⟩ []
     [(0, false), (0, false), (0, false)] 2 (by decide) ⟨2, 2, true, none⟩
     (by decide)⟩

/-- C2: in every complete interleaved execution of `N > M` concurrent
`use_access_code` calls against a fresh code with `max_usage = M`
(active, no expiry, `usage_count = 0`), exactly `M` consumers succeed,
`N − M` fail, and every failure carries the exhausted reason; and when
one unit of capacity remains (`usage_count = M − 1`), two concurrent
consumers can never both succeed, in any (even incomplete) execution. -/
theorem ledger_exact_capacity :
    (∀ (M N now : Nat) (sched : List Nat), M < N →
      allDone (runConc M true none now
        ⟨0, List.replicate N .ready⟩ sched).phases = true →
      succCount (runConc M true none now
          ⟨0, List.replicate N .ready⟩ sched).phases = M ∧
      failCount (runConc M true none now
          ⟨0, List.replicate N .ready⟩ sched).phases = N - M ∧
      (∀ r, Phase.doneF r ∈ (runConc M true none now
          ⟨0, List.replicate N .ready⟩ sched).phases → r = Reason.exhausted)) ∧
    (∀ (M now : Nat) (sched : List Nat), 0 < M →
      succCount (runConc M true none now
        ⟨M - 1, List.replicate 2 .ready⟩ sched).phases ≤ 1) := by
  constructor
  · intro M N now sched hMN hdone
    obtain ⟨h1, h2, h3⟩ := concFinal M 0 N now sched (Nat.zero_le M) hdone
    refine ⟨by omega, by omega, h3⟩
  · intro M now sched hM
    obtain ⟨_, hcnt, hle, _, _⟩ :=
      concInv_run M (M - 1) 2 now sched _ (concInv_init M (M - 1) 2 (by omega))
    omega

/-- C2 witness: `M = 1`, `N = 2`, schedule `[0, 1, 0, 1]` (both
consumers pass the validity pre-check before either updates): the
execution completes with exactly 1 success and 1 exhausted failure; and
with one unit remaining, the successes of a two-consumer schedule never
exceed 1. -/
theorem ledger_exact_capacity_witness :
    succCount (runConc 1 true none 0
      ⟨0, List.replicate 2 .ready⟩ [0, 1, 0, 1]).phases = 1 ∧
    failCount (runConc 1 true none 0
      ⟨0, List.replicate 2 .ready⟩ [0, 1, 0, 1]).phases = 1 ∧
    succCount (runConc 3 true none 0
      ⟨2, List.replicate 2 .ready⟩ [0, 1, 0, 1]).phases ≤ 1 :=
  ⟨(ledger_exact_capacity.1 1 2 0 [0, 1, 0, 1] (by decide) (by decide)).1,
   (ledger_exact_capacity.1 1 2 0 [0, 1, 0, 1] (by decide) (by decide)).2.1,
   ledger_exact_capacity.2 3 0 [0, 1, 0, 1] (by decide)⟩

/-- C3: a consume call succeeds, incrementing `usage_count` by exactly
1, if and only if the code exists, is active, is not past `expires_at`,
and `usage_count < max_usage` (i.e. `is_valid`); otherwise it fails and
leaves the code unchanged.  Scenario D: on a fresh `max_usage = 5` code,
five sequential consume calls all succeed, the 5th leaves
`usage_count = 5` with status exhausted, and a 6th call fails with the
exhausted reason. -/
theorem consume_success_iff_valid :
    (∀ (c : AccessCode) (now : Nat),
      c.is_valid now =
        (c.is_active && decide (c.usage_count < c.max_usage) &&
          !(c.expires_at.any fun t => decide (t < now)))) ∧
    (∀ (c : AccessCode) (logs : List UsageLog) (now : Nat) (ip ua : Option String),
      ((use_access_code ⟨some c, logs⟩ now ip ua false).2.success = true ↔
        c.is_valid now = true) ∧
      (use_access_code ⟨some c, logs⟩ now ip ua false).1.code =
        some (if c.is_valid now then { c with usage_count := c.usage_count + 1 }
              else c)) ∧
    (∀ (logs : List UsageLog) (now : Nat) (ip ua : Option String),
      (use_access_code ⟨none, logs⟩ now ip ua false).2 =
        ⟨false, .notFound, none⟩) ∧
    (List.range 5).all (fun k =>
      (use_access_code (consumeSeq ⟨some ⟨5, 0, true, none⟩, []⟩
        (List.replicate k (0, false))) 0 none none false).2.success) = true ∧
    (consumeSeq ⟨some ⟨5, 0, true, none⟩, []⟩
      (List.replicate 5 (0, false))).code = some ⟨5, 5, true, none⟩ ∧
    AccessCode.status ⟨5, 5, true, none⟩ 0 = .exhausted ∧
    (use_access_code (consumeSeq ⟨some ⟨5, 0, true, none⟩, []⟩
        (List.replicate 5 (0, false))) 0 none none false).2 =
      ⟨false, .exhausted, some ⟨5, 5, true, none⟩⟩ := by
  refine ⟨?_, ?_, by intros; rfl, by decide, by decide, by decide, by decide⟩
  · intro c now
    unfold AccessCode.is_valid
    cases hA : c.is_active <;> cases hE : c.expires_at <;> split_ifs <;> simp_all
  intro c logs now ip ua
  cases hv : c.is_valid now with
  | false =>
    rw [use_invalid logs ip ua false hv]
    simp
  | true =>
    rw [use_valid logs ip ua false hv]
    simp

/-- C4: after any single `use_access_code` call, exactly one of two
outcomes holds: the stored `usage_count` was incremented by 1 together
with a success `UsageLog` carrying the supplied context appended in the
same commit, or the state is entirely unchanged (including when the
commit raises and the transaction rolls back). -/
theorem consume_atomicity (st : ServiceState) (now : Nat)
    (ip ua : Option String) (fault : Bool) :
    (∃ c, st.code = some c ∧
      (use_access_code st now ip ua fault).1 =
        ⟨some { c with usage_count := c.usage_count + 1 },
         st.logs ++ [⟨true, ip, ua⟩]⟩ ∧
      (use_access_code st now ip ua fault).2.success = true) ∨
    ((use_access_code st now ip ua fault).1 = st ∧
      (use_access_code st now ip ua fault).2.success = false) := by
  obtain ⟨code, logs⟩ := st
  cases code with
  | none =>
    right
    rw [use_none]
    exact ⟨rfl, rfl⟩
  | some c =>
    cases hv : c.is_valid now with
    | false =>
      right
      rw [use_invalid logs ip ua fault hv]
      exact ⟨rfl, rfl⟩
    | true =>
      cases fault with
      | true =>
        right
        rw [use_valid logs ip ua true hv]
        simp
      | false =>
        left
        refine ⟨c, rfl, ?_, ?_⟩
        · rw [use_valid logs ip ua false hv]
          simp
        · rw [use_valid logs ip ua false hv]
          simp

end DataChart
